import Mathlib

/-!
Verification of the advanced query translator (`query_translator.py`).

The Python source is shallowly embedded below.  Strings are handled as
`List Char`; Python exceptions are modelled with `Except String`;
Python `None` values that can appear in data positions are modelled with
`Option`/`Value.null`.  Python floats are modelled as exact decimal
rationals (`PyFloat`, a mantissa with a power-of-ten denominator); this
is exact on every decimal literal exercised in the theorems below.
Python `int(...)`/`float(...)` accept underscore digit separators,
which are not modelled.
-/

namespace QT

/-- Python whitespace (`str.split`, `str.strip`, `\s`), ASCII range. -/
def pyIsSpace (c : Char) : Bool :=
  c = ' ' || c = '\t' || c = '\n' || c = '\x0d' || c = '\x0b' || c = '\x0c'

def pyIsDigit (c : Char) : Bool := '0' ≤ c && c ≤ '9'

def pyIsAlpha (c : Char) : Bool := ('a' ≤ c && c ≤ 'z') || ('A' ≤ c && c ≤ 'Z')

/-- Python `str.isalnum`, ASCII range. -/
def pyIsAlnum (c : Char) : Bool := pyIsAlpha c || pyIsDigit c

/-- Regex `\w`, ASCII range. -/
def isWordChar (c : Char) : Bool := pyIsAlnum c || c = '_'

/-- Python `str.strip()` on a character list. -/
def pyStrip (l : List Char) : List Char :=
  ((l.dropWhile pyIsSpace).reverse.dropWhile pyIsSpace).reverse

/-- Python `str.strip(chars)` on a character list. -/
def pyStripChars (cs : List Char) (l : List Char) : List Char :=
  ((l.dropWhile (cs.contains ·)).reverse.dropWhile (cs.contains ·)).reverse

/-- `startsWithList p l` is Python `l.startswith(p)`. -/
def startsWithList : List Char → List Char → Bool
  | [], _ => true
  | _ :: _, [] => false
  | p :: ps, c :: cs => p = c && startsWithList ps cs

def toLowerList (l : List Char) : List Char := l.map Char.toLower

/-- Python `str.split()` (split on whitespace runs, dropping empties). -/
def pySplitAux : List Char → List Char → List (List Char)
  | [], cur => if cur = [] then [] else [cur.reverse]
  | c :: rest, cur =>
    if pyIsSpace c then
      if cur = [] then pySplitAux rest [] else cur.reverse :: pySplitAux rest []
    else pySplitAux rest (c :: cur)

def pySplit (l : List Char) : List (List Char) := pySplitAux l []

/-- Python `str.split(sep)` for a one-character separator (keeps empties). -/
def splitOnCharAux (sep : Char) : List Char → List Char → List (List Char)
  | [], cur => [cur.reverse]
  | c :: rest, cur =>
    if c = sep then cur.reverse :: splitOnCharAux sep rest []
    else splitOnCharAux sep rest (c :: cur)

def splitOnChar (sep : Char) (l : List Char) : List (List Char) := splitOnCharAux sep l []

/-- Python `' '.join(parts)`. -/
def joinSpaceList : List (List Char) → List Char
  | [] => []
  | [x] => x
  | x :: xs => x ++ ' ' :: joinSpaceList xs

/-- Python `sep.join(parts)` on strings. -/
def joinSep (sep : String) : List String → String
  | [] => ""
  | [x] => x
  | x :: xs => x ++ sep ++ joinSep sep xs

def digitVal (c : Char) : Nat := c.toNat - '0'.toNat

/-- Python `dict.get` over a small association table. -/
def assocGet {β : Type} : List (String × β) → String → Option β
  | [], _ => none
  | (k, v) :: rest, s => if s = k then some v else assocGet rest s

def digitsToNat (l : List Char) : Nat := l.foldl (fun acc c => 10 * acc + digitVal c) 0

/-- Python `int(s)` for a decimal string (underscore separators not modelled). -/
def pyParseInt (l : List Char) : Option Int :=
  let s := pyStrip l
  let core : List Char → Option Int := fun ds =>
    if ds ≠ [] ∧ ds.all pyIsDigit then some (digitsToNat ds : Int) else none
  match s with
  | '+' :: rest => core rest
  | '-' :: rest => (core rest).map (fun n => -n)
  | rest => core rest

/-- Exact unnormalized rational modelling a Python float value: a
mantissa over a positive power-of-ten denominator.  (Normalized `ℚ`
arithmetic needs gcd reduction, which the kernel cannot evaluate;
this representation keeps every definition kernel-computable.) -/
structure PyFloat where
  num : Int
  den : Nat
deriving DecidableEq, Repr

def PyFloat.ofNat (n : Nat) : PyFloat := ⟨(n : Int), 1⟩

def PyFloat.neg (f : PyFloat) : PyFloat := ⟨-f.num, f.den⟩

def PyFloat.mulInt (f : PyFloat) (m : Int) : PyFloat := ⟨f.num * m, f.den⟩

/-- Python `int(q)` on a float value: truncation toward zero. -/
def PyFloat.trunc (f : PyFloat) : Int := Int.tdiv f.num (f.den : Int)

/-- Exponent suffix of a Python float literal: empty, or `[eE][+-]?digits`. -/
def parseExpSuffix : List Char → Option Int
  | [] => some 0
  | c :: rest =>
    if c = 'e' ∨ c = 'E' then
      match rest with
      | '+' :: ds => if ds ≠ [] ∧ ds.all pyIsDigit then some (digitsToNat ds : Int) else none
      | '-' :: ds => if ds ≠ [] ∧ ds.all pyIsDigit then some (-(digitsToNat ds : Int)) else none
      | ds => if ds ≠ [] ∧ ds.all pyIsDigit then some (digitsToNat ds : Int) else none
    else none

def applyExp (f : PyFloat) (e : Int) : PyFloat :=
  if 0 ≤ e then ⟨f.num * (10 : Int) ^ e.toNat, f.den⟩
  else ⟨f.num, f.den * 10 ^ (-e).toNat⟩

def parseUnsignedFloat (l : List Char) : Option PyFloat :=
  let intPart := l.takeWhile pyIsDigit
  let rest1 := l.drop intPart.length
  match rest1 with
  | '.' :: rest2 =>
    let fracPart := rest2.takeWhile pyIsDigit
    let rest3 := rest2.drop fracPart.length
    if intPart = [] ∧ fracPart = [] then none
    else
      (parseExpSuffix rest3).map fun e =>
        applyExp ⟨(digitsToNat intPart * 10 ^ fracPart.length + digitsToNat fracPart : Nat),
          10 ^ fracPart.length⟩ e
  | rest =>
    if intPart = [] then none
    else (parseExpSuffix rest).map fun e => applyExp (PyFloat.ofNat (digitsToNat intPart)) e

/-- Python `float(s)` for finite decimal literals (`inf`/`nan`/underscores
not modelled; results are exact rationals rather than binary64). -/
def pyParseFloat (l : List Char) : Option PyFloat :=
  let s := pyStrip l
  match s with
  | '+' :: rest => parseUnsignedFloat rest
  | '-' :: rest => (parseUnsignedFloat rest).map PyFloat.neg
  | rest => parseUnsignedFloat rest

/-- A Python value held in a `FilterNode` or a parameter list:
`None`, a string, an int, or a float (modelled as an exact rational). -/
inductive Value where
  | null : Value
  | str : String → Value
  | int : Int → Value
  | float : PyFloat → Value
deriving DecidableEq, Repr

/-- `FilterNode` dataclass: the `type` field is a string tag, exactly as
in the source. -/
inductive FilterNode where
  | mk (type : String) (key : Option String) (value : Option Value)
       (operator : Option String) (is_negated : Bool) (children : List FilterNode)

def FilterNode.type : FilterNode → String
  | .mk t _ _ _ _ _ => t

def FilterNode.key : FilterNode → Option String
  | .mk _ k _ _ _ _ => k

def FilterNode.value : FilterNode → Option Value
  | .mk _ _ v _ _ _ => v

def FilterNode.operator : FilterNode → Option String
  | .mk _ _ _ op _ _ => op

def FilterNode.is_negated : FilterNode → Bool
  | .mk _ _ _ _ n _ => n

def FilterNode.children : FilterNode → List FilterNode
  | .mk _ _ _ _ _ ch => ch

/-- `QueryMetadata` dataclass. -/
structure QueryMetadata where
  sort_by : Option String
  sort_order : Option String
  per_page : Option Int
deriving DecidableEq, Repr

def emptyMetadata : QueryMetadata := ⟨none, none, none⟩

/-! ### Static lookup tables (`QueryTranslator` class attributes) -/

def FIELD_ALIASES : List (String × String) :=
  [("type", "file_type"), ("ext", "file_type"), ("extension", "file_type"),
   ("filetype", "file_type"),
   ("user", "owner"), ("creator", "owner"), ("author", "owner"),
   ("id", "post_id"),
   ("tag-count", "tag_count"), ("tagcount", "tag_count"), ("tags", "tag_count"),
   ("size", "file_size"), ("filesize", "file_size"), ("file-size", "file_size"),
   ("matching-tags", "matching_tags"), ("matchingtags", "matching_tags"),
   ("matches", "matching_tags"),
   ("date-created", "created_at"), ("datecreated", "created_at"),
   ("upload-date", "created_at"), ("uploaded", "created_at"),
   ("date-downloaded", "downloaded_at"), ("datedownloaded", "downloaded_at"),
   ("download-date", "downloaded_at"), ("downloaded", "downloaded_at"),
   ("aspect-ratio", "aspect_ratio"), ("aspectratio", "aspect_ratio"),
   ("ratio", "aspect_ratio")]

def NUMERIC_FIELDS : List String :=
  ["score", "width", "height", "post_id", "tag_count",
   "file_size", "duration", "matching_tags", "aspect_ratio"]

def TEXT_FIELDS : List String := ["owner", "title", "rating", "file_type"]

def DATE_FIELDS : List String := ["created_at", "downloaded_at"]

def SIZE_UNITS : List (String × Int) :=
  [("b", 1), ("byte", 1), ("bytes", 1),
   ("kb", 1024), ("kilobyte", 1024), ("kilobytes", 1024),
   ("mb", 1024 ^ 2), ("megabyte", 1024 ^ 2), ("megabytes", 1024 ^ 2),
   ("gb", 1024 ^ 3), ("gigabyte", 1024 ^ 3), ("gigabytes", 1024 ^ 3),
   ("tb", 1024 ^ 4), ("terabyte", 1024 ^ 4), ("terabytes", 1024 ^ 4)]

def SORT_ALIASES : List (String × String) :=
  [("download", "downloaded_at"), ("download-date", "downloaded_at"),
   ("download_date", "downloaded_at"), ("downloaded", "downloaded_at"),
   ("upload", "created_at"), ("upload-date", "created_at"),
   ("upload_date", "created_at"), ("uploaded", "created_at"),
   ("created", "created_at"),
   ("id", "post_id"), ("post-id", "post_id"), ("post_id", "post_id"),
   ("tags", "tag_count"), ("tag-count", "tag_count"), ("tag_count", "tag_count"),
   ("tagcount", "tag_count"),
   ("file-size", "file_size"), ("filesize", "file_size"),
   ("file_size", "file_size"), ("size", "file_size"),
   ("score", "score"), ("width", "width"), ("height", "height"),
   ("owner", "owner"), ("user", "owner"), ("creator", "owner"),
   ("rating", "rating"),
   ("duration", "duration"), ("time", "duration"), ("length", "duration"),
   ("timestamp", "timestamp"), ("random", "random")]

def exclusion_prefixes : List (List Char) :=
  ["-".data, "!".data, "exclude:".data, "remove:".data, "negate:".data, "not:".data]

/-! ### `_parse_flexible_operator` -/

/-- `_parse_flexible_operator`: regex `^([<>]=?|=)(.+)$` tried first
(leading glyph, greedy with backtracking), then `^(.+?)([<>]=?|=)$`
(trailing glyph, lazily leaving the longest operator at the end), whose
operator is reversed; otherwise default `=`. -/
def parse_flexible_operator (value : List Char) : String × List Char :=
  match value with
  | '<' :: '=' :: c :: rest => ("<=", c :: rest)
  | '>' :: '=' :: c :: rest => (">=", c :: rest)
  | '<' :: c :: rest => ("<", c :: rest)
  | '>' :: c :: rest => (">", c :: rest)
  | '=' :: c :: rest => ("=", c :: rest)
  | _ =>
    match value.reverse with
    | '=' :: '<' :: c :: rest => (">=", (c :: rest).reverse)
    | '=' :: '>' :: c :: rest => ("<=", (c :: rest).reverse)
    | '<' :: c :: rest => (">", (c :: rest).reverse)
    | '>' :: c :: rest => ("<", (c :: rest).reverse)
    | '=' :: c :: rest => ("=", (c :: rest).reverse)
    | _ => ("=", value)

/-! ### `_parse_size_value` -/

/-- `_parse_size_value`: regex `^([\d.]+)\s*([a-zA-Z]*)$` against the
stripped value; on match, `int(float(num) * multiplier)`; on no match,
fall back to `int(float(value_str))`; errors are value errors. -/
def parse_size_value (value_str : List Char) : Except String Int :=
  let s := pyStrip value_str
  let numPart := s.takeWhile (fun c => pyIsDigit c || c = '.')
  let rest1 := s.drop numPart.length
  let unitPart := rest1.dropWhile pyIsSpace
  if numPart ≠ [] ∧ unitPart.all pyIsAlpha then
    match pyParseFloat numPart with
    | none => .error ("Invalid number in size: " ++ ⟨numPart⟩)
    | some number =>
      let unit : String := if unitPart = [] then "b" else ⟨toLowerList unitPart⟩
      match assocGet SIZE_UNITS unit with
      | none => .error ("Unknown size unit: " ++ (⟨unitPart⟩ : String))
      | some multiplier => .ok (PyFloat.trunc (number.mulInt multiplier))
  else
    match pyParseFloat value_str with
    | some q => .ok (PyFloat.trunc q)
    | none => .error ("Invalid size format: " ++ (⟨value_str⟩ : String))

/-! ### Date parsing (`_parse_date_filter` support)

`datetime.strptime` is modelled for the fixed format lists of the
source: each directive matches the digit patterns CPython compiles it
to (`%Y` exactly four digits; `%m`,`%d`,`%H`,`%M`,`%S` one or two
digits with their range constraints, two digits preferred), with
backtracking, and the resulting date is validated (day within month,
year at least 1), any failure trying the next format. -/

structure DateParts where
  year : Nat
  month : Nat
  day : Nat
  hour : Nat
  minute : Nat
  second : Nat
deriving DecidableEq, Repr

inductive FmtItem where
  | Y | m | d | H | M | S
  | lit (c : Char)

def isLeapYear (y : Nat) : Bool :=
  (y % 4 = 0 && y % 100 ≠ 0) || y % 400 = 0

def daysInMonth (y m : Nat) : Nat :=
  if m = 2 then (if isLeapYear y then 29 else 28)
  else if m = 4 ∨ m = 6 ∨ m = 9 ∨ m = 11 then 30
  else 31

def twoDigitsVal : List Char → Option (Nat × List Char)
  | a :: b :: rest =>
    if pyIsDigit a ∧ pyIsDigit b then some (10 * digitVal a + digitVal b, rest) else none
  | _ => none

def oneDigitVal : List Char → Option (Nat × List Char)
  | a :: rest => if pyIsDigit a then some (digitVal a, rest) else none
  | _ => none

/-- Candidate parses for a numeric directive, in the priority order of
the regex alternation CPython uses for it. -/
def fieldCands : FmtItem → List Char → List (Nat × List Char)
  | .Y, a :: b :: c :: d :: rest =>
    if pyIsDigit a ∧ pyIsDigit b ∧ pyIsDigit c ∧ pyIsDigit d then
      [(digitsToNat [a, b, c, d], rest)]
    else []
  | .Y, _ => []
  | .m, l =>
    (match twoDigitsVal l with
     | some (v, rest) => if 1 ≤ v ∧ v ≤ 12 then [(v, rest)] else []
     | none => []) ++
    (match oneDigitVal l with
     | some (v, rest) => if 1 ≤ v then [(v, rest)] else []
     | none => [])
  | .d, l =>
    (match twoDigitsVal l with
     | some (v, rest) => if 1 ≤ v ∧ v ≤ 31 then [(v, rest)] else []
     | none => []) ++
    (match oneDigitVal l with
     | some (v, rest) => if 1 ≤ v then [(v, rest)] else []
     | none => [])
  | .H, l =>
    (match twoDigitsVal l with
     | some (v, rest) => if v ≤ 23 then [(v, rest)] else []
     | none => []) ++
    (match oneDigitVal l with
     | some (v, rest) => [(v, rest)]
     | none => [])
  | .M, l =>
    (match twoDigitsVal l with
     | some (v, rest) => if v ≤ 59 then [(v, rest)] else []
     | none => []) ++
    (match oneDigitVal l with
     | some (v, rest) => [(v, rest)]
     | none => [])
  | .S, l =>
    (match twoDigitsVal l with
     | some (v, rest) => if v ≤ 59 then [(v, rest)] else []
     | none => []) ++
    (match oneDigitVal l with
     | some (v, rest) => [(v, rest)]
     | none => [])
  | .lit _, _ => []

def setField (it : FmtItem) (v : Nat) (p : DateParts) : DateParts :=
  match it with
  | .Y => { p with year := v }
  | .m => { p with month := v }
  | .d => { p with day := v }
  | .H => { p with hour := v }
  | .M => { p with minute := v }
  | .S => { p with second := v }
  | .lit _ => p

/-- Backtracking matcher for one strptime format (full match required). -/
def matchItems : List FmtItem → List Char → DateParts → Option DateParts
  | [], l, acc => if l = [] then some acc else none
  | .lit c :: its, l, acc =>
    match l with
    | x :: rest => if x = c then matchItems its rest acc else none
    | [] => none
  | it :: its, l, acc =>
    match fieldCands it l with
    | [] => none
    | [(v, rest)] => matchItems its rest (setField it v acc)
    | (v1, r1) :: (v2, r2) :: _ =>
      match matchItems its r1 (setField it v1 acc) with
      | some res => some res
      | none => matchItems its r2 (setField it v2 acc)

def validDate (p : DateParts) : Bool :=
  1 ≤ p.year ∧ 1 ≤ p.month ∧ p.month ≤ 12 ∧ 1 ≤ p.day ∧ p.day ≤ daysInMonth p.year p.month

def pyStrptime (fmt : List FmtItem) (l : List Char) : Option DateParts :=
  match matchItems fmt l ⟨1900, 1, 1, 0, 0, 0⟩ with
  | some p => if validDate p then some p else none
  | none => none

def tryFormats (fmts : List (List FmtItem)) (l : List Char) : Option DateParts :=
  match fmts with
  | [] => none
  | f :: fs =>
    match pyStrptime f l with
    | some p => some p
    | none => tryFormats fs l

def datetime_formats : List (List FmtItem) :=
  [[.Y, .lit '-', .m, .lit '-', .d, .lit ' ', .H, .lit ':', .M, .lit ':', .S],
   [.Y, .lit '-', .m, .lit '-', .d, .lit ' ', .H, .lit ':', .M],
   [.Y, .lit '/', .m, .lit '/', .d, .lit ' ', .H, .lit ':', .M, .lit ':', .S],
   [.Y, .lit '/', .m, .lit '/', .d, .lit ' ', .H, .lit ':', .M],
   [.m, .lit '-', .d, .lit '-', .Y, .lit ' ', .H, .lit ':', .M, .lit ':', .S],
   [.m, .lit '-', .d, .lit '-', .Y, .lit ' ', .H, .lit ':', .M],
   [.d, .lit '-', .m, .lit '-', .Y, .lit ' ', .H, .lit ':', .M, .lit ':', .S],
   [.d, .lit '-', .m, .lit '-', .Y, .lit ' ', .H, .lit ':', .M]]

def date_formats : List (List FmtItem) :=
  [[.Y, .lit '-', .m, .lit '-', .d],
   [.Y, .lit '/', .m, .lit '/', .d],
   [.m, .lit '-', .d, .lit '-', .Y],
   [.m, .lit '/', .d, .lit '/', .Y],
   [.d, .lit '-', .m, .lit '-', .Y],
   [.d, .lit '/', .m, .lit '/', .Y],
   [.Y, .m, .d]]

/-- `datetime.fromtimestamp` modelled as a UTC civil-time conversion
(the source uses the host local timezone, which a pure embedding fixes
to UTC); `none` for years beyond 9999, which the source surfaces as a
caught exception. -/
def timestampToDate (ts : Nat) : Option DateParts :=
  let days := ts / 86400
  let rem := ts % 86400
  let z := days + 719468
  let era := z / 146097
  let doe := z % 146097
  let yoe := (doe - doe / 1460 + doe / 36524 - doe / 146096) / 365
  let y0 := yoe + era * 400
  let doy := doe - (365 * yoe + yoe / 4 - yoe / 100)
  let mp := (5 * doy + 2) / 153
  let d := doy - (153 * mp + 2) / 5 + 1
  let m := if mp < 10 then mp + 3 else mp - 9
  let y := if m ≤ 2 then y0 + 1 else y0
  if y ≤ 9999 then
    some ⟨y, m, d, rem / 3600, rem % 3600 / 60, rem % 60⟩
  else none

def padNat (width n : Nat) : String :=
  let digits := (Nat.toDigits 10 n)
  ⟨List.replicate (width - digits.length) '0' ++ digits⟩

/-- `strftime('%Y-%m-%d %H:%M:%S')`. -/
def formatDatetime (p : DateParts) : String :=
  padNat 4 p.year ++ "-" ++ padNat 2 p.month ++ "-" ++ padNat 2 p.day ++ " " ++
    padNat 2 p.hour ++ ":" ++ padNat 2 p.minute ++ ":" ++ padNat 2 p.second

/-- `strftime('%Y-%m-%d')`. -/
def formatDate (p : DateParts) : String :=
  padNat 4 p.year ++ "-" ++ padNat 2 p.month ++ "-" ++ padNat 2 p.day

/-! ### `_parse_date_filter` and `_parse_filter_token` -/

/-- `_parse_date_filter`. -/
def parse_date_filter (field : String) (value : List Char) (is_negated : Bool) :
    Except String FilterNode :=
  let (operator, date_part) := parse_flexible_operator value
  if date_part ≠ [] ∧ date_part.all pyIsDigit then
    match timestampToDate (digitsToNat date_part) with
    | some p =>
      .ok (.mk "FILTER" (some field) (some (.str (formatDatetime p))) (some operator)
        is_negated [])
    | none => .error ("Invalid Unix timestamp: " ++ (⟨date_part⟩ : String))
  else
    match tryFormats datetime_formats date_part with
    | some p =>
      .ok (.mk "FILTER" (some field) (some (.str (formatDatetime p))) (some operator)
        is_negated [])
    | none =>
      match tryFormats date_formats date_part with
      | some p =>
        .ok (.mk "FILTER" (some field) (some (.str (formatDate p))) (some operator)
          is_negated [])
      | none => .error ("Invalid date format: " ++ (⟨date_part⟩ : String))

/-- Negation-prefix detection: first matching prefix of
`exclusion_prefixes` is stripped. -/
def stripExclusion (token : List Char) : Bool × List Char :=
  match exclusion_prefixes.find? (fun p => startsWithList p token) with
  | some p => (true, token.drop p.length)
  | none => (false, token)

/-- Regex `^([a-zA-Z_-]+):(.+)$`: the character class excludes `:`, so
the match is the maximal class run followed by a colon and a non-empty
remainder. -/
def fieldValueSplit (core : List Char) : Option (List Char × List Char) :=
  let run := core.takeWhile (fun c => pyIsAlpha c || c = '_' || c = '-')
  match core.drop run.length with
  | ':' :: v => if run ≠ [] ∧ v ≠ [] then some (run, v) else none
  | _ => none

/-- `_parse_filter_token`. -/
def parse_filter_token (token : List Char) : Except String FilterNode :=
  let (is_negated, core) := stripExclusion token
  match fieldValueSplit core with
  | none =>
    .ok (.mk "FILTER" (some "tag") (some (.str ⟨core⟩)) (some "=") is_negated [])
  | some (fieldRun, value0) =>
    let field0 : String := ⟨toLowerList fieldRun⟩
    let field := (assocGet FIELD_ALIASES field0).getD field0
    let value : List Char :=
      if field = "file_type" ∧ ¬ startsWithList ['.'] value0 ∧ ¬ startsWithList ['('] value0
      then '.' :: value0 else value0
    if field = "file_size" then
      let (operator, num_part) := parse_flexible_operator value
      match parse_size_value num_part with
      | .ok size_bytes =>
        .ok (.mk "FILTER" (some "file_size") (some (.int size_bytes)) (some operator)
          is_negated [])
      | .error e => .error e
    else if field = "duration" then
      let (operator, num_part) := parse_flexible_operator value
      match pyParseFloat num_part with
      | some duration =>
        .ok (.mk "FILTER" (some "duration") (some (.float duration)) (some operator)
          is_negated [])
      | none => .error ("Invalid duration: " ++ (⟨num_part⟩ : String))
    else if field = "aspect_ratio" then
      let (operator, num_part) := parse_flexible_operator value
      match pyParseFloat num_part with
      | some ratio =>
        .ok (.mk "FILTER" (some "aspect_ratio") (some (.float ratio)) (some operator)
          is_negated [])
      | none => .error ("Invalid aspect ratio: " ++ (⟨num_part⟩ : String))
    else if DATE_FIELDS.contains field then
      parse_date_filter field value is_negated
    else if NUMERIC_FIELDS.contains field then
      let (operator, num_part) := parse_flexible_operator value
      if num_part.contains '*' then
        .ok (.mk "FILTER" (some field) (some (.str ⟨num_part⟩)) (some "pattern")
          is_negated [])
      else
        match pyParseInt num_part with
        | some num_value =>
          .ok (.mk "FILTER" (some field) (some (.int num_value)) (some operator)
            is_negated [])
        | none =>
          .error ("Invalid number in " ++ field ++ ": " ++ (⟨num_part⟩ : String))
    else
      .ok (.mk "FILTER" (some field) (some (.str ⟨value⟩)) (some "=") is_negated [])

/-! ### `_is_field_prefix` and `_tokenize` -/

/-- Scan of the reversed window for `re.search(r'(\w+):([^\s]*?)$', w)`:
looking backwards, a colon must appear before any whitespace and be
immediately preceded (in text order) by a word character. -/
def fieldColonScan : List Char → Bool
  | [] => false
  | c :: rest =>
    if pyIsSpace c then false
    else if c = ':' then
      match rest with
      | [] => false
      | d :: _ => if isWordChar d then true else fieldColonScan rest
    else fieldColonScan rest

/-- `_is_field_prefix(text, pos)`, given the reversed list of the
characters before `pos` (the source inspects at most the 50 characters
preceding `pos`). -/
def is_field_prefix (doneRev : List Char) : Bool :=
  match doneRev with
  | [] => false
  | _ => fieldColonScan (doneRev.take 50)

/-- One step state of `_tokenize`: remaining input, reversed processed
input, buffer, paren depth, `in_field_value` flag, accumulated tokens. -/
def tokenizeAux : List Char → List Char → List Char → Nat → Bool → List (List Char) →
    List (List Char)
  | [], _doneRev, buffer, _depth, _inField, acc =>
    if pyStrip buffer ≠ [] then acc ++ [pyStrip buffer] else acc
  | c :: rest, doneRev, buffer, depth, inField, acc =>
    if c = ':' ∧ buffer ≠ [] ∧ (buffer.getLast?.elim false pyIsAlnum) = true then
      tokenizeAux rest (c :: doneRev) (buffer ++ [c]) depth true acc
    else
      let inF := if c = ' ' ∧ depth = 0 then false else inField
      if c = '(' then
        let isTag := inF ∨ is_field_prefix doneRev = true ∨
          (buffer ≠ [] ∧ (buffer.getLast?.elim false isWordChar) = true)
        if isTag then
          tokenizeAux rest (c :: doneRev) (buffer ++ [c]) depth inF acc
        else
          let doFlush := pyStrip buffer ≠ [] ∧ depth = 0
          tokenizeAux rest (c :: doneRev) (if doFlush then [] else buffer) (depth + 1) inF
            ((if doFlush then acc ++ [pyStrip buffer] else acc) ++ [['(']])
      else if c = ')' then
        let isTag := inF ∨ is_field_prefix (c :: doneRev) = true ∨
          (rest.head?.elim false isWordChar) = true ∨ depth = 0
        if isTag then
          tokenizeAux rest (c :: doneRev) (buffer ++ [c]) depth inF acc
        else
          let doFlush := pyStrip buffer ≠ []
          tokenizeAux rest (c :: doneRev) (if doFlush then [] else buffer) (depth - 1) inF
            ((if doFlush then acc ++ [pyStrip buffer] else acc) ++ [[')']])
      else if (c = '|' ∨ c = '~' ∨ c = ',') ∧ depth > 0 then
        let doFlush := pyStrip buffer ≠ []
        tokenizeAux rest (c :: doneRev) (if doFlush then [] else buffer) depth inF
          ((if doFlush then acc ++ [pyStrip buffer] else acc) ++ [['|']])
      else if c = ' ' then
        if depth = 0 then
          if pyStrip buffer ≠ [] then
            tokenizeAux rest (c :: doneRev) [] depth inF (acc ++ [pyStrip buffer])
          else tokenizeAux rest (c :: doneRev) buffer depth inF acc
        else
          if pyStrip buffer ≠ [] then
            if (rest.dropWhile (· = ' ')).head?.elim false
                (fun d => d = '|' ∨ d = '~' ∨ d = ',' ∨ d = ')' ∨ d = '(') = true then
              tokenizeAux rest (c :: doneRev) [] depth inF (acc ++ [pyStrip buffer])
            else
              tokenizeAux rest (c :: doneRev) (buffer ++ [c]) depth inF acc
          else tokenizeAux rest (c :: doneRev) buffer depth inF acc
      else
        tokenizeAux rest (c :: doneRev) (buffer ++ [c]) depth inF acc

/-- `_tokenize`. -/
def tokenize (query : List Char) : List (List Char) :=
  (tokenizeAux query [] [] 0 false []).filter (· ≠ [])

/-! ### `_parse_tokens`

The source iterates over the token list with an index; the embedding
consumes the list, with a fuel argument standing for the loop bound
(`parse_query` supplies fuel larger than the number of loop steps the
index-bounded source loops can make, so the fuel branch is never the
observable result of a `parse_query` call on its own output sizes). -/

def finalizeAnd : List FilterNode → FilterNode
  | [] => .mk "AND" none none none false []
  | [x] => x
  | xs => .mk "AND" none none none false xs

mutual

/-- Outer loop of `_parse_tokens`: accumulates the AND group, returns
the collapsed node and the tokens after the consumed region. -/
def parse_tokens_aux : Nat → List (List Char) → Nat → List FilterNode →
    Except String (FilterNode × List (List Char))
  | 0, _, _, _ => .error "fuel exhausted"
  | _ + 1, [], _, andGroup => .ok (finalizeAnd andGroup, [])
  | fuel + 1, tok :: rest, depth, andGroup =>
    if tok = ['('] then
      match parse_tokens_aux fuel rest (depth + 1) [] with
      | .ok (node, restAfter) => parse_tokens_aux fuel restAfter depth (andGroup ++ [node])
      | .error e => .error e
    else if tok = [')'] then .ok (finalizeAnd andGroup, rest)
    else if tok = ['|'] then parse_tokens_aux fuel rest depth andGroup
    else
      match parse_filter_token tok with
      | .error e => .error e
      | .ok fnode =>
        if rest.head? = some ['|'] then
          match parse_or_loop fuel rest depth [fnode] with
          | .ok (orGroup, restAfter) =>
            parse_tokens_aux fuel restAfter depth
              (andGroup ++ [.mk "OR" none none none false orGroup])
          | .error e => .error e
        else parse_tokens_aux fuel rest depth (andGroup ++ [fnode])

/-- Inner OR-group loop of `_parse_tokens`. -/
def parse_or_loop : Nat → List (List Char) → Nat → List FilterNode →
    Except String (List FilterNode × List (List Char))
  | 0, _, _, _ => .error "fuel exhausted"
  | _ + 1, [], _, orGroup => .ok (orGroup, [])
  | fuel + 1, tok :: rest, depth, orGroup =>
    if tok = ['|'] then parse_or_loop fuel rest depth orGroup
    else if tok = [')'] ∧ depth > 0 then .ok (orGroup, tok :: rest)
    else if tok = ['('] then
      match parse_tokens_aux fuel rest (depth + 1) [] with
      | .ok (node, restAfter) => parse_or_loop fuel restAfter depth (orGroup ++ [node])
      | .error e => .error e
    else
      match parse_filter_token tok with
      | .error e => .error e
      | .ok fnode =>
        if rest.head? = some ['|'] then parse_or_loop fuel rest depth (orGroup ++ [fnode])
        else .ok (orGroup ++ [fnode], rest)

end

/-- `_parse_query`. -/
def parse_query (query : List Char) : Except String FilterNode :=
  match parse_tokens_aux (2 * (tokenize query).length + 2) (tokenize query) 0 [] with
  | .ok (ast, _) => .ok ast
  | .error e => .error e

/-! ### `_parse_sort_value` and `_extract_metadata` -/

def endsWithList (suf l : List Char) : Bool := startsWithList suf.reverse l.reverse

def dropLastN (n : Nat) (l : List Char) : List Char := l.take (l.length - n)

def pyReplaceChar (a b : Char) (l : List Char) : List Char :=
  l.map (fun c => if c = a then b else c)

def sortLookup (key fallback : String) : String := (assocGet SORT_ALIASES key).getD fallback

/-- `_parse_sort_value`. -/
def parse_sort_value (value0 : List Char) : Option String × Option String :=
  if value0 = [] then (none, none)
  else
    let value := pyStripChars ['"', '\''] value0
    let fo : List Char × Option String :=
      if value.getLast? = some '>' then (value.dropLast, some "ASC")
      else if value.head? = some '>' then (value.drop 1, some "DESC")
      else if value.getLast? = some '<' then (value.dropLast, some "DESC")
      else if value.head? = some '<' then (value.drop 1, some "ASC")
      else if endsWithList "-desc".data value ∨ endsWithList "_desc".data value then
        (dropLastN 5 value, some "DESC")
      else if endsWithList "-descending".data value ∨ endsWithList "_descending".data value then
        (dropLastN 11 value, some "DESC")
      else if endsWithList "-asc".data value ∨ endsWithList "_asc".data value then
        (dropLastN 4 value, some "ASC")
      else if endsWithList "-ascending".data value ∨ endsWithList "_ascending".data value then
        (dropLastN 10 value, some "ASC")
      else (value, none)
    let field := fo.1
    let order := fo.2
    if field.contains ';' ∨ field.contains ',' then
      let sep := if field.contains ';' then ';' else ','
      let fields := (splitOnChar sep field).map pyStrip
      let normalized := fields.map fun f =>
        sortLookup ⟨pyReplaceChar ' ' '-' (toLowerList f)⟩ ⟨f⟩
      (some (joinSep "," normalized), order)
    else
      let fieldStr : String := ⟨pyReplaceChar ' ' '-' (toLowerList field)⟩
      (some (sortLookup fieldStr fieldStr), order)

/-- Token loop of `_extract_metadata`. -/
def extract_metadata_tokens : List (List Char) → QueryMetadata → List (List Char) →
    List Char × QueryMetadata
  | [], md, cleanParts => (joinSpaceList cleanParts, md)
  | tok :: rest, md, cleanParts =>
    if startsWithList "sort:".data (toLowerList tok) then
      let sort_value := tok.drop 5
      let md' :=
        if sort_value ≠ [] then
          let sb := parse_sort_value sort_value
          ⟨sb.1, sb.2, md.per_page⟩
        else md
      extract_metadata_tokens rest md' cleanParts
    else if startsWithList "per-page:".data (toLowerList tok) then
      let md' : QueryMetadata :=
        match pyParseInt (tok.drop 9) with
        | some per_page => ⟨md.sort_by, md.sort_order, some (max 1 (min per_page 200))⟩
        | none => md
      extract_metadata_tokens rest md' cleanParts
    else extract_metadata_tokens rest md (cleanParts ++ [tok])

/-- `_extract_metadata`. -/
def extract_metadata (query : List Char) : List Char × QueryMetadata :=
  extract_metadata_tokens (pySplit query) emptyMetadata []

/-! ### SQL emission (`_filter_to_sql`, `_and_to_sql`, `_or_to_sql`,
`_ast_to_sql`) -/

/-- Python f-string rendering of an optional string (`None` renders as
the text `None`). -/
def optStr : Option String → String
  | some s => s
  | none => "None"

def optValue : Option Value → Value
  | some v => v
  | none => .null

/-- Operations that require a Python `str` raise `TypeError` on other
values; the error propagates to `translate`. -/
def getStrValue : Option Value → Except String String
  | some (.str s) => .ok s
  | _ => .error "TypeError"

def hasStar (s : String) : Bool := s.data.contains '*'

/-- Python `value.replace('*', '%')`. -/
def starToPercent (s : String) : String := ⟨pyReplaceChar '*' '%' s.data⟩

def op_inverse : List (String × String) :=
  [("=", "!="), (">", "<="), (">=", "<"), ("<", ">="), ("<=", ">")]

/-- `op_inverse.get(operator, '!=')`. -/
def invertOp (op : Option String) : String := (assocGet op_inverse (optStr op)).getD "!="

def tagCountExpr : String := "(length(tags) - length(replace(tags, ',', '')) + 1)"

/-- `_filter_to_sql`. -/
def filter_to_sql (key : Option String) (value : Option Value) (operator : Option String)
    (is_negated : Bool) : Except String (String × List Value) :=
  if key = some "tag" then
    match getStrValue value with
    | .error e => .error e
    | .ok v =>
      let pat := if hasStar v then starToPercent v else v
      let search_pattern := "%\"" ++ pat ++ "\"%"
      .ok ((if is_negated then "tags NOT LIKE ?" else "tags LIKE ?"), [.str search_pattern])
  else if key = some "tag_count" then
    if operator = some "pattern" then
      match getStrValue value with
      | .error e => .error e
      | .ok v =>
        let pat := starToPercent v
        .ok ((if is_negated then "CAST(" ++ tagCountExpr ++ " AS TEXT) NOT LIKE ?"
              else "CAST(" ++ tagCountExpr ++ " AS TEXT) LIKE ?"), [.str pat])
    else
      let sql_op := if is_negated then invertOp operator else optStr operator
      .ok (tagCountExpr ++ " " ++ sql_op ++ " ?", [optValue value])
  else if key = some "aspect_ratio" then
    let sql_op := if is_negated then invertOp operator else optStr operator
    .ok ("(CAST(width AS REAL) / CAST(height AS REAL)) " ++ sql_op ++ " ?", [optValue value])
  else if key = some "matching_tags" then
    .ok ("1=1", [])
  else if (key.elim false DATE_FIELDS.contains) = true then
    let sql_op := if is_negated then invertOp operator else optStr operator
    .ok ("DATE(" ++ optStr key ++ ") " ++ sql_op ++ " DATE(?)", [optValue value])
  else if key = some "file_size" ∨ key = some "duration" then
    if operator = some "pattern" then
      match getStrValue value with
      | .error e => .error e
      | .ok v =>
        let pat := starToPercent v
        .ok ((if is_negated then "CAST(" ++ optStr key ++ " AS TEXT) NOT LIKE ?"
              else "CAST(" ++ optStr key ++ " AS TEXT) LIKE ?"), [.str pat])
    else
      let sql_op := if is_negated then invertOp operator else optStr operator
      if key = some "duration" then
        .ok ("(" ++ optStr key ++ " IS NOT NULL AND " ++ optStr key ++ " " ++ sql_op ++ " ?)",
          [optValue value])
      else
        .ok (optStr key ++ " " ++ sql_op ++ " ?", [optValue value])
  else if (key.elim false NUMERIC_FIELDS.contains) = true then
    if operator = some "pattern" then
      match getStrValue value with
      | .error e => .error e
      | .ok v =>
        let pat := starToPercent v
        .ok ((if is_negated then "CAST(" ++ optStr key ++ " AS TEXT) NOT LIKE ?"
              else "CAST(" ++ optStr key ++ " AS TEXT) LIKE ?"), [.str pat])
    else
      let sql_op := if is_negated then invertOp operator else optStr operator
      .ok (optStr key ++ " " ++ sql_op ++ " ?", [optValue value])
  else if (key.elim false TEXT_FIELDS.contains) = true then
    match getStrValue value with
    | .error e => .error e
    | .ok v =>
      if hasStar v then
        let pat := starToPercent v
        .ok ((if is_negated then optStr key ++ " NOT LIKE ?" else optStr key ++ " LIKE ?"),
          [.str pat])
      else if is_negated then
        .ok ("LOWER(" ++ optStr key ++ ") != LOWER(?)", [optValue value])
      else
        .ok ("LOWER(" ++ optStr key ++ ") = LOWER(?)", [optValue value])
  else
    .ok ("1=1", [])

/-- `" AND "`/`" OR "` child joining of `_and_to_sql`/`_or_to_sql`. -/
def joinClauses (sep : String) (rs : List (String × List Value)) : String × List Value :=
  (joinSep sep (rs.map (fun r => "(" ++ r.1 ++ ")")), (rs.map Prod.snd).flatten)

mutual

/-- `_ast_to_sql` (dispatch on the string type tag). -/
def ast_to_sql : FilterNode → Except String (String × List Value)
  | .mk t k v op neg ch =>
    if t = "FILTER" then filter_to_sql k v op neg
    else if t = "AND" then
      if ch.isEmpty then .ok ("1=1", [])
      else
        match ast_children ch with
        | .ok rs => .ok (joinClauses " AND " rs)
        | .error e => .error e
    else if t = "OR" then
      if ch.isEmpty then .ok ("1=1", [])
      else
        match ast_children ch with
        | .ok rs => .ok (joinClauses " OR " rs)
        | .error e => .error e
    else .ok ("1=1", [])

def ast_children : List FilterNode → Except String (List (String × List Value))
  | [] => .ok []
  | c :: cs =>
    match ast_to_sql c with
    | .error e => .error e
    | .ok r =>
      match ast_children cs with
      | .error e => .error e
      | .ok rs => .ok (r :: rs)

end

/-! ### `translate` -/

/-- The fallback `translate` returns for empty queries and on any
internal failure (Python truthiness: an empty status string counts as
no status). -/
def safeFallback : Option String → String × List Value × QueryMetadata
  | some s => if s.isEmpty then ("1=1", [], emptyMetadata)
              else ("status = ?", [.str s], emptyMetadata)
  | none => ("1=1", [], emptyMetadata)

/-- The body of `translate`'s `try` block. -/
def translate_body (query : List Char) (status : Option String) :
    Except String (String × List Value × QueryMetadata) :=
  match parse_query (extract_metadata query).1 with
  | .error e => .error e
  | .ok ast =>
    match ast_to_sql ast with
    | .error e => .error e
    | .ok (sql, params) =>
      match status with
      | some st =>
        if st.isEmpty then .ok (sql, params, (extract_metadata query).2)
        else .ok ("(" ++ sql ++ ") AND status = ?", params ++ [.str st],
          (extract_metadata query).2)
      | none => .ok (sql, params, (extract_metadata query).2)

/-- `translate`. -/
def translate (query : String) (status : Option String) :
    String × List Value × QueryMetadata :=
  if pyStrip query.data = [] then safeFallback status
  else
    match translate_body query.data status with
    | .ok r => r
    | .error _ => safeFallback status

/-! ## Theorems -/

instance {ε α : Type} [DecidableEq ε] [DecidableEq α] : DecidableEq (Except ε α) :=
  fun a b =>
    match a, b with
    | .ok x, .ok y =>
      if h : x = y then .isTrue (by rw [h]) else .isFalse (by simp [h])
    | .error x, .error y =>
      if h : x = y then .isTrue (by rw [h]) else .isFalse (by simp [h])
    | .ok _, .error _ => .isFalse (by simp)
    | .error _, .ok _ => .isFalse (by simp)

theorem isEmpty_false_of_ne {s : String} (h : s ≠ "") : s.isEmpty = false := by
  rw [Bool.eq_false_iff]
  intro he
  exact h ((String.isEmpty_iff s).mp he)

/-- C9: an empty or whitespace-only query yields exactly the status-only
equality when a (truthy) status is supplied, and the always-true filter
otherwise, with empty metadata; in particular for `""` with status
`"pending"` and with no status. -/
theorem C9_empty_query :
    (∀ (q : String) (s : String), pyStrip q.data = [] → s ≠ "" →
      translate q (some s) = ("status = ?", [.str s], emptyMetadata)) ∧
    (∀ q : String, pyStrip q.data = [] →
      translate q none = ("1=1", [], emptyMetadata)) ∧
    translate "" (some "pending") = ("status = ?", [.str "pending"], emptyMetadata) ∧
    translate "" none = ("1=1", [], emptyMetadata) := by
  refine ⟨?_, ?_, by decide, by decide⟩
  · intro q s hq hs
    simp [translate, hq, safeFallback, isEmpty_false_of_ne hs]
  · intro q hq
    simp [translate, hq, safeFallback]

/-- C9 witness: instantiated at the whitespace query `"   "`. -/
theorem C9_empty_query_witness :
    translate "   " (some "pending") = ("status = ?", [.str "pending"], emptyMetadata) ∧
    translate "   " none = ("1=1", [], emptyMetadata) :=
  ⟨C9_empty_query.1 "   " "pending" (by decide) (by decide),
   C9_empty_query.2.1 "   " (by decide)⟩

/-- C1: `translate` is a total function (internal failures are modelled
by `translate_body` returning an error, which `translate` converts into
the safe fallback: the status-only filter when a truthy status was
supplied, the always-true filter otherwise); on the unparseable query
`score:notanumber` with status `saved` it returns the safe fallback. -/
theorem C1_no_exception :
    translate "score:notanumber" (some "saved") =
      ("status = ?", [.str "saved"], emptyMetadata) ∧
    (∀ (q s e : String), s ≠ "" → translate_body q.data (some s) = .error e →
      translate q (some s) = ("status = ?", [.str s], emptyMetadata)) ∧
    (∀ (q e : String), translate_body q.data none = .error e →
      translate q none = ("1=1", [], emptyMetadata)) := by
  refine ⟨by decide, ?_, ?_⟩
  · intro q s e hs h
    by_cases hq : pyStrip q.data = []
    · simp [translate, hq, safeFallback, isEmpty_false_of_ne hs]
    · simp [translate, hq, h, safeFallback, isEmpty_false_of_ne hs]
  · intro q e h
    by_cases hq : pyStrip q.data = []
    · simp [translate, hq, safeFallback]
    · simp [translate, hq, h, safeFallback]

/-- C1 witness: the universal fallback clauses instantiated at the
claim's own failing query (its numeric parse raises a value error). -/
theorem C1_no_exception_witness :
    translate "score:notanumber" (some "saved") =
      ("status = ?", [.str "saved"], emptyMetadata) ∧
    translate "score:notanumber" none = ("1=1", [], emptyMetadata) :=
  ⟨C1_no_exception.2.1 "score:notanumber" "saved" "Invalid number in score: notanumber"
      (by decide) (by decide),
   C1_no_exception.2.2 "score:notanumber" "Invalid number in score: notanumber" (by decide)⟩

/-- C8: size values convert through the unit table (case-insensitive,
bytes by default) with truncation of the fractional product:
`1mb` ↦ 1048576, `500kb` ↦ 512000, unitless `100` ↦ 100, and these
reach the emitted parameter list unchanged. -/
theorem C8_size_units :
    parse_size_value "1mb".data = .ok 1048576 ∧
    parse_size_value "500kb".data = .ok 512000 ∧
    parse_size_value "100".data = .ok 100 ∧
    parse_size_value "1MB".data = .ok 1048576 ∧
    parse_size_value "2.5b".data = .ok 2 ∧
    parse_size_value "1.5kb".data = .ok 1536 ∧
    translate "file_size:1mb" none = ("file_size = ?", [.int 1048576], emptyMetadata) ∧
    translate "file_size:500kb" none = ("file_size = ?", [.int 512000], emptyMetadata) ∧
    translate "file_size:100" none = ("file_size = ?", [.int 100], emptyMetadata) := by
  refine ⟨by decide, by decide, by decide, by decide, by decide, by decide,
    by decide, by decide, by decide⟩

/-- C5 counterexample: at top level `|` is not an OR separator (the
tokenizer only unifies `|`/`~`/`,` into the separator token inside a
parenthesized group), so `"a b|c"` keeps `b|c` as one literal term and
the query renders as two AND-ed tag filters with two parameters — not
as `a AND (b OR c)`. -/
theorem C5_counterexample :
    parse_query "a b|c".data =
      .ok (.mk "AND" none none none false
        [.mk "FILTER" (some "tag") (some (.str "a")) (some "=") false [],
         .mk "FILTER" (some "tag") (some (.str "b|c")) (some "=") false []]) ∧
    translate "a b|c" none =
      ("(tags LIKE ?) AND (tags LIKE ?)",
       [.str "%\"a\"%", .str "%\"b|c\"%"], emptyMetadata) ∧
    (translate "a b|c" none).1 ≠
      "(tags LIKE ?) AND ((tags LIKE ?) OR (tags LIKE ?))" :=
  ⟨rfl, by decide, by decide⟩

/-- C5 amended: the pipe OR-separator groups alternatives inside a
parenthesized group, binding tighter than the surrounding AND:
`"a (b|c)"` parses to `AND(a, OR(b, c))`; at top level a pipe is kept
as literal tag text, so `"a b|c"` parses to `AND(a, "b|c")`. -/
theorem C5_amended :
    parse_query "a (b|c)".data =
      .ok (.mk "AND" none none none false
        [.mk "FILTER" (some "tag") (some (.str "a")) (some "=") false [],
         .mk "OR" none none none false
           [.mk "FILTER" (some "tag") (some (.str "b")) (some "=") false [],
            .mk "FILTER" (some "tag") (some (.str "c")) (some "=") false []]]) ∧
    translate "a (b|c)" none =
      ("(tags LIKE ?) AND ((tags LIKE ?) OR (tags LIKE ?))",
       [.str "%\"a\"%", .str "%\"b\"%", .str "%\"c\"%"], emptyMetadata) ∧
    translate "a b|c" none =
      ("(tags LIKE ?) AND (tags LIKE ?)",
       [.str "%\"a\"%", .str "%\"b|c\"%"], emptyMetadata) :=
  ⟨rfl, by decide, by decide⟩

/-- C6 counterexample: `")"` preceded by `-` at depth 0 is not inside a
`field:` value and is adjacent to no alphanumeric-or-underscore
character, yet the tokenizer keeps it as literal text (the close-paren
rule also treats any `)` at depth 0 as literal): `"-)"` stays one
buffered token instead of flushing `-` and emitting a structural `)`. -/
theorem C6_counterexample :
    tokenize "-)".data = ["-)".data] ∧
    tokenize "-)".data ≠ ["-".data, ")".data] := by
  refine ⟨by decide, by decide⟩

/-- C6 amended: a bare tag token with parentheses glued to word
characters is one literal term; `"(a | b)"` with spaces tokenizes to the
structural tokens `(`, `a`, `|`, `b`, `)`; a parenthesis that is not
inside a `field:` value and not adjacent to an alphanumeric-or-
underscore character (the preceding buffered character for `(`, the
following character for `)`) is emitted as a structural grouping token
after flushing the buffer — except that a `)` at depth 0 (no structural
group open) is kept as literal text. -/
theorem C6_amended :
    tokenize "name_(series)".data = ["name_(series)".data] ∧
    tokenize "(a | b)".data = ["(".data, "a".data, "|".data, "b".data, ")".data] ∧
    tokenize "-(a)".data = ["-".data, "(".data, "a".data, ")".data] ∧
    tokenize "-)".data = ["-)".data] := by
  refine ⟨by decide, by decide, by decide, by decide⟩

/-- C2: flexible operator placement with the exact glyph mapping of the
source: leading `>`/`<`/`>=`/`<=`/`=` keep their sense, trailing ones
are inverted (`>`↦`<`, `<`↦`>`, `>=`↦`<=`, `<=`↦`>=`, while a trailing
`=` stays `=`); a leading glyph takes priority so only one end is ever
stripped; with no glyph at either end the operator defaults to `=`. -/
theorem C2_flexible_operator :
    parse_flexible_operator ">5".data = (">", "5".data) ∧
    parse_flexible_operator "5>".data = ("<", "5".data) ∧
    parse_flexible_operator "<5".data = ("<", "5".data) ∧
    parse_flexible_operator "5<".data = (">", "5".data) ∧
    parse_flexible_operator ">=5".data = (">=", "5".data) ∧
    parse_flexible_operator "5>=".data = ("<=", "5".data) ∧
    parse_flexible_operator "<=5".data = ("<=", "5".data) ∧
    parse_flexible_operator "5<=".data = (">=", "5".data) ∧
    parse_flexible_operator "=5".data = ("=", "5".data) ∧
    parse_flexible_operator "5".data = ("=", "5".data) ∧
    parse_flexible_operator ">5<".data = (">", "5<".data) ∧
    (∀ v : List Char,
      v.head? ≠ some '<' → v.head? ≠ some '>' → v.head? ≠ some '=' →
      v.getLast? ≠ some '<' → v.getLast? ≠ some '>' → v.getLast? ≠ some '=' →
      parse_flexible_operator v = ("=", v)) := by
  refine ⟨by decide, by decide, by decide, by decide, by decide, by decide, by decide,
    by decide, by decide, by decide, by decide, ?_⟩
  intro v h1 h2 h3 h4 h5 h6
  unfold parse_flexible_operator
  split
  next => simp_all
  next => simp_all
  next => simp_all
  next => simp_all
  next => simp_all
  next =>
    rw [← List.head?_reverse] at h4 h5 h6
    split
    next heq => rw [heq] at h6; simp at h6
    next heq => rw [heq] at h6; simp at h6
    next heq => rw [heq] at h4; simp at h4
    next heq => rw [heq] at h5; simp at h5
    next heq => rw [heq] at h6; simp at h6
    next => rfl

/-- C2 witness: the default-`=` clause instantiated at the glyph-free
value `5`. -/
theorem C2_flexible_operator_witness :
    parse_flexible_operator "5".data = ("=", "5".data) :=
  C2_flexible_operator.2.2.2.2.2.2.2.2.2.2.2 "5".data (by decide) (by decide)
    (by decide) (by decide) (by decide) (by decide)

/-- C10: a filter whose field (after alias normalization) is not the
tag sentinel and not a recognized numeric, text or date field falls
through every emitter branch to the always-true fragment `1=1` with no
parameters, negated or not; end to end, `foo:bar` and `-foo:bar` both
translate to `1=1` with no parameters. -/
theorem C10_unknown_field :
    (∀ (k : String) (v : Option Value) (op : Option String) (neg : Bool),
      k ≠ "tag" → k ∉ NUMERIC_FIELDS → k ∉ TEXT_FIELDS → k ∉ DATE_FIELDS →
      filter_to_sql (some k) v op neg = .ok ("1=1", [])) ∧
    translate "foo:bar" none = ("1=1", [], emptyMetadata) ∧
    translate "-foo:bar" none = ("1=1", [], emptyMetadata) := by
  refine ⟨?_, by decide, by decide⟩
  intro k v op neg h1 h2 h3 h4
  have hk1 : k ≠ "tag_count" := by rintro rfl; exact h2 (by decide)
  have hk2 : k ≠ "aspect_ratio" := by rintro rfl; exact h2 (by decide)
  have hk3 : k ≠ "matching_tags" := by rintro rfl; exact h2 (by decide)
  have hk4 : k ≠ "file_size" := by rintro rfl; exact h2 (by decide)
  have hk5 : k ≠ "duration" := by rintro rfl; exact h2 (by decide)
  simp [filter_to_sql, h1, hk1, hk2, hk3, hk4, hk5, h2, h3, h4]

/-- C10 witness: the fall-through clause instantiated at field `foo`,
value `bar`, both negation polarities. -/
theorem C10_unknown_field_witness :
    filter_to_sql (some "foo") (some (.str "bar")) (some "=") true = .ok ("1=1", []) ∧
    filter_to_sql (some "foo") (some (.str "bar")) (some "=") false = .ok ("1=1", []) :=
  ⟨C10_unknown_field.1 "foo" (some (.str "bar")) (some "=") true (by decide) (by decide)
      (by decide) (by decide),
   C10_unknown_field.1 "foo" (some (.str "bar")) (some "=") false (by decide) (by decide)
      (by decide) (by decide)⟩

/-- C3: negating a comparison filter on a numeric field emits exactly
what the un-negated filter with the flipped operator emits (the flip
table being `=`↦`!=`, `>`↦`<=`, `>=`↦`<`, `<`↦`>=`, `<=`↦`>`), for
every numeric field and every comparison operator; end to end for all
four ordered operators on `score` and for the spec's `tag_count`
example, and the rendered fragment is a plain flat comparison, never a
`NOT (...)` wrapper. -/
theorem C3_negation_flip :
    (∀ (k op : String) (v : Option Value),
      k ∈ NUMERIC_FIELDS → op ∈ (["=", ">", ">=", "<", "<="] : List String) →
      filter_to_sql (some k) v (some op) true =
        filter_to_sql (some k) v (some (invertOp (some op))) false) ∧
    invertOp (some "=") = "!=" ∧ invertOp (some ">") = "<=" ∧
    invertOp (some ">=") = "<" ∧ invertOp (some "<") = ">=" ∧
    invertOp (some "<=") = ">" ∧
    translate "-score:>5" none = translate "score:<=5" none ∧
    translate "-score:>=5" none = translate "score:<5" none ∧
    translate "-score:<5" none = translate "score:>=5" none ∧
    translate "-score:<=5" none = translate "score:>5" none ∧
    translate "-tag_count:>5" none = translate "tag_count:<=5" none ∧
    translate "-score:>5" none = ("score <= ?", [.int 5], emptyMetadata) ∧
    translate "-tag_count:>5" none =
      ("(length(tags) - length(replace(tags, ',', '')) + 1) <= ?",
       [.int 5], emptyMetadata) := by
  refine ⟨?_, by decide, by decide, by decide, by decide, by decide, by decide, by decide,
    by decide, by decide, by decide, by decide, by decide⟩
  intro k op v hk hop
  simp only [NUMERIC_FIELDS] at hk
  fin_cases hk <;> fin_cases hop <;> rfl

/-- C3 witness: the operator-flip clause instantiated at `score`, `>`,
value 5. -/
theorem C3_negation_flip_witness :
    filter_to_sql (some "score") (some (.int 5)) (some ">") true =
      filter_to_sql (some "score") (some (.int 5)) (some (invertOp (some ">"))) false :=
  C3_negation_flip.1 "score" ">" (some (.int 5)) (by decide) (by decide)

theorem pySplitAux_nonspace (l : List Char) (h : ∀ c ∈ l, pyIsSpace c = false) :
    ∀ cur, pySplitAux l cur =
      if cur.reverse ++ l = [] then [] else [cur.reverse ++ l] := by
  induction l with
  | nil => intro cur; simp [pySplitAux]
  | cons c rest ih =>
    intro cur
    have hc : pyIsSpace c = false := h c (List.mem_cons_self c rest)
    have hrest : ∀ x ∈ rest, pyIsSpace x = false := fun x hx => h x (List.mem_cons_of_mem c hx)
    rw [pySplitAux, hc]
    simp only [Bool.false_eq_true, if_false]
    rw [ih hrest (c :: cur)]
    simp [List.reverse_cons, List.append_assoc]

theorem pySplit_single (l : List Char) (hne : l ≠ []) (h : ∀ c ∈ l, pyIsSpace c = false) :
    pySplit l = [l] := by
  unfold pySplit
  rw [pySplitAux_nonspace l h []]
  simp [hne]

theorem startsWithList_cons_ne {p c : Char} {ps cs : List Char} (h : p ≠ c) :
    startsWithList (p :: ps) (c :: cs) = false := by
  simp [startsWithList, h]

theorem startsWithList_append (p y : List Char) : startsWithList p (p ++ y) = true := by
  induction p with
  | nil => simp [startsWithList]
  | cons a ps ih => simp [startsWithList, ih]

/-- C7: metadata directives are removed with no residue —
`sort:score-desc per-page:10 red` carries sort field `score`, order
`DESC`, page size 10, and its filter SQL and parameters are those of
`red` alone; every parseable `per-page:` value is clamped into
`[1, 200]`; an unparseable `per-page:` value is dropped while the rest
of the query still translates. -/
theorem C7_metadata :
    (translate "sort:score-desc per-page:10 red" none).1 = (translate "red" none).1 ∧
    (translate "sort:score-desc per-page:10 red" none).2.1 = (translate "red" none).2.1 ∧
    (translate "sort:score-desc per-page:10 red" none).2.2 =
      ⟨some "score", some "DESC", some 10⟩ ∧
    (∀ (s : List Char) (n : Int), (∀ c ∈ s, pyIsSpace c = false) →
      pyParseInt s = some n →
      (extract_metadata ("per-page:".data ++ s)).2.per_page = some (max 1 (min n 200))) ∧
    translate "per-page:abc red" none = translate "red" none := by
  refine ⟨by decide, by decide, by decide, ?_, by decide⟩
  intro s n hs hn
  have hne : ("per-page:".data ++ s) ≠ [] := by simp
  have hall : ∀ c ∈ "per-page:".data ++ s, pyIsSpace c = false := by
    intro c hc
    rcases List.mem_append.mp hc with h | h
    · fin_cases h <;> decide
    · exact hs c h
  have hmap : List.map Char.toLower ("per-page:".data ++ s) =
      "per-page:".data ++ List.map Char.toLower s := by
    rw [List.map_append,
      show List.map Char.toLower "per-page:".data = "per-page:".data from by decide]
  have hdrop : ("per-page:".data ++ s).drop 9 = s := by
    simp
  have h1 : startsWithList "sort:".data
      ("per-page:".data ++ List.map Char.toLower s) = false := by
    rw [show ("sort:".data : List Char) = 's' :: "ort:".data from rfl,
        show ("per-page:".data : List Char) ++ List.map Char.toLower s =
          'p' :: ("er-page:".data ++ List.map Char.toLower s) from rfl]
    exact startsWithList_cons_ne (by decide)
  have h2 : startsWithList "per-page:".data
      ("per-page:".data ++ List.map Char.toLower s) = true :=
    startsWithList_append _ _
  unfold extract_metadata
  rw [pySplit_single _ hne hall]
  rw [extract_metadata_tokens, toLowerList, hmap, h1, h2]
  simp only [Bool.false_eq_true, if_false, if_true, hdrop, hn]
  rw [extract_metadata_tokens]

/-- C7 witness: the clamp clause instantiated at `per-page:10`. -/
theorem C7_metadata_witness :
    (extract_metadata "per-page:10".data).2.per_page = some (max 1 (min 10 200)) :=
  C7_metadata.2.2.2.1 "10".data 10 (by decide) (by decide)

/-! ### Placeholder counting (for C4) -/

/-- Number of `?` placeholders in a SQL fragment. -/
def countQ (s : String) : Nat := s.data.count '?'
abbrev noQ (s : String) : Prop := countQ s = 0

theorem countQ_append (a b : String) : countQ (a ++ b) = countQ a + countQ b := by
  cases a with | mk xs => cases b with | mk ys =>
  show (xs ++ ys).count '?' = xs.count '?' + ys.count '?'
  exact List.count_append ..

theorem invertOp_noQ (op : Option String) : noQ (invertOp op) := by
  unfold invertOp op_inverse
  simp only [assocGet]
  split_ifs <;> decide

theorem optStr_noQ_of_elim (key : Option String) (fs : List String)
    (hfs : ∀ f ∈ fs, noQ f) (h : key.elim false fs.contains = true) :
    countQ (optStr key) = 0 := by
  cases key with
  | none => simp [Option.elim] at h
  | some k => exact hfs k (List.elem_iff.mp h)

theorem filter_count (k : Option String) (v : Option Value) (op : Option String)
    (neg : Bool) (r : String × List Value) (hop : noQ (optStr op))
    (h : filter_to_sql k v op neg = .ok r) : countQ r.1 = r.2.length := by
  have hdate : ∀ f ∈ DATE_FIELDS, noQ f := by decide
  have hnum : ∀ f ∈ NUMERIC_FIELDS, noQ f := by decide
  have htext : ∀ f ∈ TEXT_FIELDS, noQ f := by decide
  have hso : countQ (if neg = true then invertOp op else optStr op) = 0 := by
    cases neg
    · simpa [noQ] using hop
    · simpa [noQ] using invertOp_noQ op
  unfold filter_to_sql at h
  by_cases h1 : k = some "tag"
  · rw [if_pos h1] at h
    cases hv : getStrValue v with
    | error e => simp only [hv] at h; exact Except.noConfusion h
    | ok s =>
      simp only [hv] at h
      injection h with h2
      subst h2
      cases neg <;> rfl
  · rw [if_neg h1] at h
    by_cases h2 : k = some "tag_count"
    · rw [if_pos h2] at h
      by_cases hp : op = some "pattern"
      · rw [if_pos hp] at h
        cases hv : getStrValue v with
        | error e => simp only [hv] at h; exact Except.noConfusion h
        | ok s =>
          simp only [hv] at h
          injection h with h3
          subst h3
          cases neg <;> rfl
      · rw [if_neg hp] at h
        injection h with h3
        subst h3
        simp only [countQ_append, hso, List.length_singleton]
        decide
    · rw [if_neg h2] at h
      by_cases h3 : k = some "aspect_ratio"
      · rw [if_pos h3] at h
        injection h with h4
        subst h4
        simp only [countQ_append, hso, List.length_singleton]
        decide
      · rw [if_neg h3] at h
        by_cases h4 : k = some "matching_tags"
        · rw [if_pos h4] at h
          injection h with h5
          subst h5
          rfl
        · rw [if_neg h4] at h
          by_cases h5 : k.elim false DATE_FIELDS.contains = true
          · rw [if_pos h5] at h
            injection h with h6
            subst h6
            simp only [countQ_append, hso, List.length_singleton, optStr_noQ_of_elim k DATE_FIELDS hdate h5]
            decide
          · rw [if_neg h5] at h
            by_cases h6 : k = some "file_size" ∨ k = some "duration"
            · rw [if_pos h6] at h
              by_cases hp : op = some "pattern"
              · rw [if_pos hp] at h
                cases hv : getStrValue v with
                | error e => simp only [hv] at h; exact Except.noConfusion h
                | ok s =>
                  simp only [hv] at h
                  injection h with h7
                  subst h7
                  rcases h6 with h6 | h6 <;> subst h6 <;> cases neg <;> rfl
              · rw [if_neg hp] at h
                by_cases h7 : k = some "duration"
                · rw [if_pos h7] at h
                  injection h with h8
                  subst h8
                  subst h7
                  simp only [countQ_append, hso, List.length_singleton]
                  decide
                · rw [if_neg h7] at h
                  injection h with h8
                  subst h8
                  rcases h6 with h6 | h6
                  · subst h6
                    simp only [countQ_append, hso, List.length_singleton]
                    decide
                  · exact absurd h6 h7
            · rw [if_neg h6] at h
              by_cases h7 : k.elim false NUMERIC_FIELDS.contains = true
              · rw [if_pos h7] at h
                by_cases hp : op = some "pattern"
                · rw [if_pos hp] at h
                  cases hv : getStrValue v with
                  | error e => simp only [hv] at h; exact Except.noConfusion h
                  | ok s =>
                    simp only [hv] at h
                    injection h with h8
                    subst h8
                    have hk := optStr_noQ_of_elim k NUMERIC_FIELDS hnum h7
                    cases neg
                    · rw [if_neg (by decide)]
                      simp only [countQ_append, hk, List.length_singleton]
                      decide
                    · rw [if_pos rfl]
                      simp only [countQ_append, hk, List.length_singleton]
                      decide
                · rw [if_neg hp] at h
                  injection h with h8
                  subst h8
                  simp only [countQ_append, hso, List.length_singleton, optStr_noQ_of_elim k NUMERIC_FIELDS hnum h7]
                  decide
              · rw [if_neg h7] at h
                by_cases h8 : k.elim false TEXT_FIELDS.contains = true
                · rw [if_pos h8] at h
                  cases hv : getStrValue v with
                  | error e => simp only [hv] at h; exact Except.noConfusion h
                  | ok s =>
                    simp only [hv] at h
                    have hk := optStr_noQ_of_elim k TEXT_FIELDS htext h8
                    by_cases hstar : hasStar s = true
                    · rw [if_pos hstar] at h
                      injection h with h9
                      subst h9
                      cases neg
                      · rw [if_neg (by decide)]
                        simp only [countQ_append, hk, List.length_singleton]
                        decide
                      · rw [if_pos rfl]
                        simp only [countQ_append, hk, List.length_singleton]
                        decide
                    · rw [if_neg hstar] at h
                      cases neg with
                      | false =>
                        simp only [Bool.false_eq_true, if_false] at h
                        injection h with h9
                        subst h9
                        simp only [countQ_append, hk, List.length_singleton]
                        decide
                      | true =>
                        simp only [if_true] at h
                        injection h with h9
                        subst h9
                        simp only [countQ_append, hk, List.length_singleton]
                        decide
                · rw [if_neg h8] at h
                  injection h with h9
                  subst h9
                  rfl

theorem pfo_noQ (v : List Char) : noQ (parse_flexible_operator v).1 := by
  unfold parse_flexible_operator
  split
  · show noQ "<="; decide
  · show noQ ">="; decide
  · show noQ "<"; decide
  · show noQ ">"; decide
  · show noQ "="; decide
  · split
    · show noQ ">="; decide
    · show noQ "<="; decide
    · show noQ ">"; decide
    · show noQ "<"; decide
    · show noQ "="; decide
    · show noQ "="; decide

theorem pfo_fst_noQ (v : List Char) (op : String) (np : List Char)
    (h : parse_flexible_operator v = (op, np)) : noQ op := by
  have := pfo_noQ v
  rw [h] at this
  exact this

/-- Every operator stored in a tree is placeholder-free (`None`
renders as `"None"`). -/
inductive WFNode : FilterNode → Prop where
  | mk : ∀ (t : String) (k : Option String) (v : Option Value) (op : Option String)
      (neg : Bool) (ch : List FilterNode), noQ (optStr op) →
      (∀ c ∈ ch, WFNode c) → WFNode (.mk t k v op neg ch)

theorem parse_date_filter_wf (field : String) (value : List Char) (neg : Bool)
    (n : FilterNode) (h : parse_date_filter field value neg = .ok n) : WFNode n := by
  unfold parse_date_filter at h
  repeat' split at h
  all_goals try exact Except.noConfusion h
  all_goals (injection h with h1; subst h1)
  all_goals exact WFNode.mk _ _ _ _ _ _ (pfo_fst_noQ _ _ _ (by assumption)) (by simp)

theorem parse_filter_token_wf (tok : List Char) (n : FilterNode)
    (h : parse_filter_token tok = .ok n) : WFNode n := by
  unfold parse_filter_token at h
  repeat' (first | split at h | simp only [] at h)
  all_goals try exact Except.noConfusion h
  all_goals try exact parse_date_filter_wf _ _ _ _ h
  all_goals (injection h with h1; subst h1)
  all_goals
    first
    | exact WFNode.mk _ _ _ _ _ _ (by decide) (by simp)
    | exact WFNode.mk _ _ _ _ _ _ (pfo_noQ _) (by simp)

theorem finalizeAnd_wf (l : List FilterNode) (hl : ∀ a ∈ l, WFNode a) :
    WFNode (finalizeAnd l) := by
  unfold finalizeAnd
  split
  · exact WFNode.mk _ _ _ _ _ _ (by decide) (by simp)
  · exact hl _ (by simp)
  · exact WFNode.mk _ _ _ _ _ _ (by decide) hl

/-- Both parser loops only build well-formed nodes. -/
theorem parse_loops_wf (fuel : Nat) :
    (∀ tokens depth acc node rest, (∀ a ∈ acc, WFNode a) →
      parse_tokens_aux fuel tokens depth acc = .ok (node, rest) → WFNode node) ∧
    (∀ tokens depth acc out rest, (∀ a ∈ acc, WFNode a) →
      parse_or_loop fuel tokens depth acc = .ok (out, rest) → ∀ a ∈ out, WFNode a) := by
  induction fuel with
  | zero =>
    constructor
    · intro tokens depth acc node rest _ h
      exact Except.noConfusion h
    · intro tokens depth acc out rest _ h
      exact Except.noConfusion h
  | succ f ih =>
    obtain ⟨ihP, ihQ⟩ := ih
    constructor
    · intro tokens depth acc node rest hacc h
      cases tokens with
      | nil =>
        rw [parse_tokens_aux] at h
        injection h with h1
        injection h1 with h2 h3
        subst h2
        exact finalizeAnd_wf acc hacc
      | cons tok rest0 =>
        rw [parse_tokens_aux] at h
        by_cases h1 : tok = ['(']
        · rw [if_pos h1] at h
          cases hsub : parse_tokens_aux f rest0 (depth + 1) [] with
          | error e => rw [hsub] at h; exact Except.noConfusion h
          | ok nr =>
            rw [hsub] at h
            simp only [] at h
            have hn : WFNode nr.1 := ihP rest0 (depth + 1) [] nr.1 nr.2 (by simp) (by
              rw [hsub])
            refine ihP nr.2 depth (acc ++ [nr.1]) node rest ?_ h
            intro a ha
            rcases List.mem_append.mp ha with ha | ha
            · exact hacc a ha
            · rw [List.mem_singleton.mp ha]; exact hn
        · rw [if_neg h1] at h
          by_cases h2 : tok = [')']
          · rw [if_pos h2] at h
            injection h with h3
            injection h3 with h4 h5
            subst h4
            exact finalizeAnd_wf acc hacc
          · rw [if_neg h2] at h
            by_cases h3 : tok = ['|']
            · rw [if_pos h3] at h
              exact ihP rest0 depth acc node rest hacc h
            · rw [if_neg h3] at h
              cases hft : parse_filter_token tok with
              | error e => rw [hft] at h; exact Except.noConfusion h
              | ok fnode =>
                rw [hft] at h
                simp only [] at h
                have hf : WFNode fnode := parse_filter_token_wf tok fnode hft
                by_cases h4 : rest0.head? = some ['|']
                · rw [if_pos h4] at h
                  cases hor : parse_or_loop f rest0 depth [fnode] with
                  | error e => rw [hor] at h; exact Except.noConfusion h
                  | ok gr =>
                    rw [hor] at h
                    simp only [] at h
                    have hg : ∀ a ∈ gr.1, WFNode a :=
                      ihQ rest0 depth [fnode] gr.1 gr.2
                        (by intro a ha; rw [List.mem_singleton.mp ha]; exact hf)
                        (by rw [hor])
                    refine ihP gr.2 depth
                      (acc ++ [FilterNode.mk "OR" none none none false gr.1]) node rest ?_ h
                    intro a ha
                    rcases List.mem_append.mp ha with ha | ha
                    · exact hacc a ha
                    · rw [List.mem_singleton.mp ha]
                      exact WFNode.mk _ _ _ _ _ _ (by decide) hg
                · rw [if_neg h4] at h
                  refine ihP rest0 depth (acc ++ [fnode]) node rest ?_ h
                  intro a ha
                  rcases List.mem_append.mp ha with ha | ha
                  · exact hacc a ha
                  · rw [List.mem_singleton.mp ha]; exact hf
    · intro tokens depth acc out rest hacc h
      cases tokens with
      | nil =>
        rw [parse_or_loop] at h
        injection h with h1
        injection h1 with h2 h3
        subst h2
        exact hacc
      | cons tok rest0 =>
        rw [parse_or_loop] at h
        by_cases h1 : tok = ['|']
        · rw [if_pos h1] at h
          exact ihQ rest0 depth acc out rest hacc h
        · rw [if_neg h1] at h
          by_cases h2 : tok = [')'] ∧ depth > 0
          · rw [if_pos h2] at h
            injection h with h3
            injection h3 with h4 h5
            subst h4
            exact hacc
          · rw [if_neg h2] at h
            by_cases h3 : tok = ['(']
            · rw [if_pos h3] at h
              cases hsub : parse_tokens_aux f rest0 (depth + 1) [] with
              | error e => rw [hsub] at h; exact Except.noConfusion h
              | ok nr =>
                rw [hsub] at h
                simp only [] at h
                have hn : WFNode nr.1 := ihP rest0 (depth + 1) [] nr.1 nr.2 (by simp) (by
                  rw [hsub])
                refine ihQ nr.2 depth (acc ++ [nr.1]) out rest ?_ h
                intro a ha
                rcases List.mem_append.mp ha with ha | ha
                · exact hacc a ha
                · rw [List.mem_singleton.mp ha]; exact hn
            · rw [if_neg h3] at h
              cases hft : parse_filter_token tok with
              | error e => rw [hft] at h; exact Except.noConfusion h
              | ok fnode =>
                rw [hft] at h
                simp only [] at h
                have hf : WFNode fnode := parse_filter_token_wf tok fnode hft
                by_cases h4 : rest0.head? = some ['|']
                · rw [if_pos h4] at h
                  refine ihQ rest0 depth (acc ++ [fnode]) out rest ?_ h
                  intro a ha
                  rcases List.mem_append.mp ha with ha | ha
                  · exact hacc a ha
                  · rw [List.mem_singleton.mp ha]; exact hf
                · rw [if_neg h4] at h
                  injection h with h5
                  injection h5 with h6 h7
                  subst h6
                  intro a ha
                  rcases List.mem_append.mp ha with ha | ha
                  · exact hacc a ha
                  · rw [List.mem_singleton.mp ha]; exact hf

theorem parse_query_wf (q : List Char) (ast : FilterNode)
    (h : parse_query q = .ok ast) : WFNode ast := by
  unfold parse_query at h
  cases hp : parse_tokens_aux (2 * (tokenize q).length + 2) (tokenize q) 0 [] with
  | error e => rw [hp] at h; exact Except.noConfusion h
  | ok pr =>
    rw [hp] at h
    injection h with h1
    subst h1
    exact (parse_loops_wf _).1 _ _ _ pr.1 pr.2 (fun a ha => absurd ha (List.not_mem_nil a))
      (by rw [hp])

theorem joinSep_countQ (sep : String) (hsep : countQ sep = 0) :
    ∀ l : List String, countQ (joinSep sep l) = (l.map countQ).sum := by
  intro l
  induction l with
  | nil =>
    show countQ "" = 0
    decide
  | cons x xs ih =>
    cases xs with
    | nil => simp [joinSep]
    | cons y ys =>
      show countQ (x ++ sep ++ joinSep sep (y :: ys)) = _
      rw [countQ_append, countQ_append, hsep, ih]
      simp only [List.map_cons, List.sum_cons]
      omega

theorem sum_counts_eq (rs : List (String × List Value))
    (h : ∀ r ∈ rs, countQ r.1 = r.2.length) :
    ((rs.map (fun r => "(" ++ r.1 ++ ")")).map countQ).sum =
      ((rs.map Prod.snd).map List.length).sum := by
  induction rs with
  | nil => rfl
  | cons r rs ih =>
    simp only [List.map_cons, List.sum_cons]
    rw [countQ_append, countQ_append, h r (List.mem_cons_self r rs),
      ih (fun a ha => h a (List.mem_cons_of_mem r ha))]
    have c1 : countQ "(" = 0 := by decide
    have c2 : countQ ")" = 0 := by decide
    omega

theorem ast_children_count (ch : List FilterNode)
    (ih : ∀ c ∈ ch, ∀ r, ast_to_sql c = .ok r → countQ r.1 = r.2.length) :
    ∀ rs, ast_children ch = .ok rs → ∀ r ∈ rs, countQ r.1 = r.2.length := by
  induction ch with
  | nil =>
    intro rs h
    rw [ast_children] at h
    injection h with h1
    subst h1
    intro r hr
    exact absurd hr (List.not_mem_nil r)
  | cons c cs ihl =>
    intro rs h
    rw [ast_children] at h
    cases hc : ast_to_sql c with
    | error e => rw [hc] at h; exact Except.noConfusion h
    | ok r0 =>
      rw [hc] at h
      cases hcs : ast_children cs with
      | error e => rw [hcs] at h; exact Except.noConfusion h
      | ok rs0 =>
        rw [hcs] at h
        injection h with h1
        subst h1
        intro r hr
        rcases List.mem_cons.mp hr with hr | hr
        · subst hr
          exact ih c (List.mem_cons_self c cs) r hc
        · exact ihl (fun a ha => ih a (List.mem_cons_of_mem c ha)) rs0 hcs r hr

theorem ast_count : ∀ (n : FilterNode), WFNode n →
    ∀ r, ast_to_sql n = .ok r → countQ r.1 = r.2.length := by
  intro n hwf
  induction hwf with
  | mk t k v op neg ch hop hch ih =>
    intro r h
    rw [ast_to_sql] at h
    by_cases ht : t = "FILTER"
    · rw [if_pos ht] at h
      exact filter_count k v op neg r hop h
    · rw [if_neg ht] at h
      by_cases ha : t = "AND"
      · rw [if_pos ha] at h
        by_cases hch0 : ch.isEmpty = true
        · rw [if_pos hch0] at h
          injection h with h1
          subst h1
          decide
        · rw [if_neg hch0] at h
          cases hcs : ast_children ch with
          | error e => rw [hcs] at h; exact Except.noConfusion h
          | ok rs =>
            rw [hcs] at h
            injection h with h1
            subst h1
            have hr := ast_children_count ch ih rs hcs
            show countQ (joinSep " AND " (rs.map (fun r => "(" ++ r.1 ++ ")"))) =
              ((rs.map Prod.snd).flatten).length
            rw [joinSep_countQ " AND " (by decide), List.length_flatten]
            exact sum_counts_eq rs hr
      · rw [if_neg ha] at h
        by_cases ho : t = "OR"
        · rw [if_pos ho] at h
          by_cases hch0 : ch.isEmpty = true
          · rw [if_pos hch0] at h
            injection h with h1
            subst h1
            decide
          · rw [if_neg hch0] at h
            cases hcs : ast_children ch with
            | error e => rw [hcs] at h; exact Except.noConfusion h
            | ok rs =>
              rw [hcs] at h
              injection h with h1
              subst h1
              have hr := ast_children_count ch ih rs hcs
              show countQ (joinSep " OR " (rs.map (fun r => "(" ++ r.1 ++ ")"))) =
                ((rs.map Prod.snd).flatten).length
              rw [joinSep_countQ " OR " (by decide), List.length_flatten]
              exact sum_counts_eq rs hr
        · rw [if_neg ho] at h
          injection h with h1
          subst h1
          decide

theorem translate_body_count (q : List Char) (st : Option String)
    (r : String × List Value × QueryMetadata) (h : translate_body q st = .ok r) :
    countQ r.1 = r.2.1.length := by
  unfold translate_body at h
  cases hpq : parse_query (extract_metadata q).1 with
  | error e => rw [hpq] at h; exact Except.noConfusion h
  | ok ast =>
    rw [hpq] at h
    simp only [] at h
    cases hsq : ast_to_sql ast with
    | error e => rw [hsq] at h; exact Except.noConfusion h
    | ok sp =>
      rw [hsq] at h
      simp only [] at h
      obtain ⟨sql, params⟩ := sp
      have hc : countQ sql = params.length :=
        ast_count ast (parse_query_wf _ _ hpq) (sql, params) hsq
      cases st with
      | none =>
        injection h with h1
        subst h1
        exact hc
      | some s =>
        by_cases hs : s.isEmpty = true
        · simp only [] at h
          rw [if_pos hs] at h
          injection h with h1
          subst h1
          exact hc
        · simp only [] at h
          rw [if_neg hs] at h
          injection h with h1
          subst h1
          show countQ ("(" ++ sql ++ ") AND status = ?") = (params ++ [Value.str s]).length
          rw [countQ_append, countQ_append, hc, List.length_append]
          have c1 : countQ "(" = 0 := by decide
          have c2 : countQ ") AND status = ?" = 1 := by decide
          simp [c1, c2]

theorem translate_body_status_last (q : List Char) (s : String)
    (r : String × List Value × QueryMetadata) (hs : s.isEmpty = false)
    (h : translate_body q (some s) = .ok r) :
    r.2.1.getLast? = some (.str s) := by
  unfold translate_body at h
  cases hpq : parse_query (extract_metadata q).1 with
  | error e => rw [hpq] at h; exact Except.noConfusion h
  | ok ast =>
    rw [hpq] at h
    simp only [] at h
    cases hsq : ast_to_sql ast with
    | error e => rw [hsq] at h; exact Except.noConfusion h
    | ok sp =>
      rw [hsq] at h
      simp only [] at h
      obtain ⟨sql, params⟩ := sp
      simp only [] at h
      rw [if_neg (by rw [hs]; exact Bool.false_ne_true)] at h
      injection h with h1
      subst h1
      show (params ++ [Value.str s]).getLast? = some (.str s)
      rw [List.getLast?_concat]

/-- C4: for every query string and optional status, the emitted SQL has
exactly as many `?` placeholders as there are parameters, and when a
(truthy) status is supplied its parameter is appended last. -/
theorem C4_placeholder_params :
    (∀ (q : String) (st : Option String),
      countQ (translate q st).1 = (translate q st).2.1.length) ∧
    (∀ (q : String) (s : String), s ≠ "" →
      ((translate q (some s)).2.1).getLast? = some (.str s)) := by
  constructor
  · intro q st
    unfold translate
    by_cases hq : pyStrip q.data = []
    · rw [if_pos hq]
      cases st with
      | none => decide
      | some s =>
        rw [safeFallback]
        by_cases hs : s.isEmpty = true
        · rw [if_pos hs]; decide
        · rw [if_neg hs]; rfl
    · rw [if_neg hq]
      cases hb : translate_body q.data st with
      | error e =>
        show countQ (safeFallback st).1 = (safeFallback st).2.1.length
        cases st with
        | none => decide
        | some s =>
          rw [safeFallback]
          by_cases hs : s.isEmpty = true
          · rw [if_pos hs]; decide
          · rw [if_neg hs]; rfl
      | ok r =>
        exact translate_body_count q.data st r hb
  · intro q s hs
    have hse : s.isEmpty = false := isEmpty_false_of_ne hs
    unfold translate
    by_cases hq : pyStrip q.data = []
    · rw [if_pos hq]
      rw [safeFallback, if_neg (by rw [hse]; exact Bool.false_ne_true)]
      rfl
    · rw [if_neg hq]
      cases hb : translate_body q.data (some s) with
      | error e =>
        show (safeFallback (some s)).2.1.getLast? = some (.str s)
        rw [safeFallback, if_neg (by rw [hse]; exact Bool.false_ne_true)]
        rfl
      | ok r =>
        exact translate_body_status_last q.data s r hse hb

/-- C4 witness: instantiated at the query `red` with status
`pending`. -/
theorem C4_placeholder_params_witness :
    countQ (translate "red" (some "pending")).1 =
      (translate "red" (some "pending")).2.1.length ∧
    ((translate "red" (some "pending")).2.1).getLast? = some (.str "pending") :=
  ⟨C4_placeholder_params.1 "red" (some "pending"),
   C4_placeholder_params.2 "red" "pending" (by decide)⟩

end QT
